import Mathlib

/-!
Shallow embedding of the SoundChain marketplace program
(`programs/soundchain-marketplace/src/lib.rs`).

Conventions of the embedding:
- `u64`/`u32`/`u16` values are `Nat` with explicit wrap-around (`% 2 ^ 64`,
  `% 2 ^ 32`) exactly where the Rust code performs machine arithmetic that
  can overflow, and where an `as u64` cast truncates a `u128` intermediate.
- `i64` timestamps are `Int`; `Clock::get()?.unix_timestamp` is passed in
  as an explicit `now : Int` argument.
- Token transfers performed through the token program are recorded as an
  emitted list of `Transfer` values naming the token accounts of the
  instruction context; a failing `require!` aborts before any transfer.
- Fallible instructions return `Except ErrorCode _`; in the ledger an
  `Except.error` outcome rolls the transaction back, so only the `.ok`
  payload describes a state change.
-/

namespace SoundchainMarketplace

/-- Account address (Solana `Pubkey`), abstracted to an opaque identifier. -/
structure Pubkey where
  val : Nat
deriving DecidableEq, Repr

/-- `Pubkey::default()` — the all-zero key, used by `settle_auction` as the
no-bidder sentinel for `Auction.current_bidder`. -/
def Pubkey.default : Pubkey := ⟨0⟩

/-- Size of the `u64` value space. -/
def u64Size : Nat := 2 ^ 64

/-- Truncation applied by an `as u64` cast of a wider integer. -/
def u64cast (n : Nat) : Nat := n % u64Size

/-- Wrapping `u64` multiplication (Rust release-profile `*` on `u64`). -/
def mulU64 (a b : Nat) : Nat := a * b % u64Size

/-- Wrapping `u64` subtraction (Rust release-profile `-` on `u64`). -/
def subU64 (a b : Nat) : Nat := (a + u64Size - b) % u64Size

/-- `ListingType` enum (lib.rs lines 446-451). -/
inductive ListingType where
  | FixedPrice
  | Auction
  | MakeOffer
deriving DecidableEq, Repr

/-- `ListingStatus` enum (lib.rs lines 453-459). -/
inductive ListingStatus where
  | Active
  | Sold
  | Cancelled
  | Expired
deriving DecidableEq, Repr

/-- `Marketplace` account (lib.rs lines 463-471). `platform_fee` is a `u16`,
the counters are `u64`. -/
structure Marketplace where
  authority : Pubkey
  fee_collector : Pubkey
  platform_fee : Nat
  total_listings : Nat
  total_sales : Nat
  paused : Bool
deriving DecidableEq, Repr

/-- `Listing` account (lib.rs lines 473-486). -/
structure Listing where
  seller : Pubkey
  nft_mint : Pubkey
  payment_mint : Pubkey
  price : Nat
  listing_type : ListingType
  status : ListingStatus
  created_at : Int
  expires_at : Int
  scid : Option String
  buyer : Option Pubkey
  sold_at : Option Int
deriving DecidableEq, Repr

/-- `Auction` account (lib.rs lines 488-495). `current_bid` is `u64`,
`bid_count` is `u32`. -/
structure Auction where
  listing : Pubkey
  current_bid : Nat
  current_bidder : Pubkey
  bid_count : Nat
  reserve_met : Bool
deriving DecidableEq, Repr

/-- `ErrorCode` enum (lib.rs lines 691-719), extended with the two account
validation failures Anchor raises before a handler runs:
`ConstraintHasOne` for the `has_one = authority` constraint of `AdminAction`
(line 644), and `AccountNotProvided` for dereferencing an optional account
that the caller omitted. -/
inductive ErrorCode where
  | MarketplacePaused
  | ListingNotActive
  | ListingExpired
  | NotFixedPrice
  | NotAuction
  | AuctionNotEnded
  | BidTooLow
  | InsufficientBidIncrease
  | NotSeller
  | HasActiveBid
  | DurationTooShort
  | DurationTooLong
  | FeeTooHigh
  | ConstraintHasOne
  | AccountNotProvided
deriving DecidableEq, Repr

/-- The token accounts named by the instruction contexts (lib.rs
lines 514-640); transfers are recorded against these roles. -/
inductive Acct where
  | sellerNft
  | escrowNft
  | buyerNft
  | winnerNft
  | buyerPayment
  | sellerPayment
  | bidderPayment
  | escrowPayment
  | feeCollector
  | previousBidder
deriving DecidableEq, Repr

/-- One `token::transfer` CPI: source account, destination account, amount. -/
structure Transfer where
  src : Acct
  dst : Acct
  amount : Nat
deriving DecidableEq, Repr

/-- Fee expression of `buy` (line 141) and `settle_auction` (line 284):
`(price as u128 * fee as u128 / 10000) as u64`.  The `u128` product of a
`u64` and a `u16` is exact (it is below `2 ^ 80`), so only the final
`as u64` cast can truncate. -/
def platform_fee_of (price fee : Nat) : Nat := u64cast (price * fee / 10000)

/-- `seller_amount = price - platform_fee` on `u64` (lines 142 and 285). -/
def seller_amount_of (price fee : Nat) : Nat := subU64 price (platform_fee_of price fee)

/-- `initialize` (lib.rs lines 22-35): stores the arguments verbatim — there
is no range check on `platform_fee` — and zeroes the counters. -/
def initMarketplace (authority fee_collector : Pubkey) (platform_fee : Nat) : Marketplace :=
  { authority := authority
    fee_collector := fee_collector
    platform_fee := platform_fee
    total_listings := 0
    total_sales := 0
    paused := false }

/-- `create_listing` (lib.rs lines 38-79): pause gate, then a fresh Active
fixed-price listing and the NFT escrow deposit. -/
def create_listing (marketplace : Marketplace) (seller nft_mint payment_mint : Pubkey)
    (price : Nat) (duration : Int) (scid : Option String) (now : Int) :
    Except ErrorCode (Listing × List Transfer) :=
  if marketplace.paused then Except.error ErrorCode.MarketplacePaused
  else
    Except.ok
      ({ seller := seller
         nft_mint := nft_mint
         payment_mint := payment_mint
         price := price
         listing_type := ListingType.FixedPrice
         status := ListingStatus.Active
         created_at := now
         expires_at := now + duration
         scid := scid
         buyer := none
         sold_at := none },
       [⟨Acct.sellerNft, Acct.escrowNft, 1⟩])

/-- `create_auction` (lib.rs lines 82-125): like `create_listing` but with
the duration window checks and type `Auction`; the reserve price is stored
in the `price` field. -/
def create_auction (marketplace : Marketplace) (seller nft_mint payment_mint : Pubkey)
    (reserve_price : Nat) (duration : Int) (scid : Option String) (now : Int) :
    Except ErrorCode (Listing × List Transfer) :=
  if marketplace.paused then Except.error ErrorCode.MarketplacePaused
  else if duration < 3600 then Except.error ErrorCode.DurationTooShort
  else if 2592000 < duration then Except.error ErrorCode.DurationTooLong
  else
    Except.ok
      ({ seller := seller
         nft_mint := nft_mint
         payment_mint := payment_mint
         price := reserve_price
         listing_type := ListingType.Auction
         status := ListingStatus.Active
         created_at := now
         expires_at := now + duration
         scid := scid
         buyer := none
         sold_at := none },
       [⟨Acct.sellerNft, Acct.escrowNft, 1⟩])

/-- `buy` (lib.rs lines 128-197): guards, fee split, the two payment
transfers and the NFT release, then the listing is marked Sold. -/
def buy (marketplace : Marketplace) (listing : Listing) (buyer : Pubkey) (now : Int) :
    Except ErrorCode (Listing × List Transfer) :=
  if marketplace.paused then Except.error ErrorCode.MarketplacePaused
  else if listing.status ≠ ListingStatus.Active then Except.error ErrorCode.ListingNotActive
  else if listing.listing_type ≠ ListingType.FixedPrice then Except.error ErrorCode.NotFixedPrice
  else if listing.expires_at ≤ now then Except.error ErrorCode.ListingExpired
  else
    let platform_fee := platform_fee_of listing.price marketplace.platform_fee
    let seller_amount := seller_amount_of listing.price marketplace.platform_fee
    Except.ok
      ({ listing with
          status := ListingStatus.Sold
          buyer := some buyer
          sold_at := some now },
       [⟨Acct.buyerPayment, Acct.sellerPayment, seller_amount⟩,
        ⟨Acct.buyerPayment, Acct.feeCollector, platform_fee⟩,
        ⟨Acct.escrowNft, Acct.buyerNft, 1⟩])

/-- `place_bid` (lib.rs lines 200-267): guards, the 5 percent increment
check `amount >= auction.current_bid * 105 / 100` evaluated in `u64`
arithmetic (line 217), refund of the previous bid when one exists, escrow
of the new bid, and the auction-state update. -/
def place_bid (marketplace : Marketplace) (listing : Listing) (auction : Auction)
    (bidder : Pubkey) (amount : Nat) (now : Int) :
    Except ErrorCode (Auction × List Transfer) :=
  if marketplace.paused then Except.error ErrorCode.MarketplacePaused
  else if listing.status ≠ ListingStatus.Active then Except.error ErrorCode.ListingNotActive
  else if listing.listing_type ≠ ListingType.Auction then Except.error ErrorCode.NotAuction
  else if listing.expires_at ≤ now then Except.error ErrorCode.ListingExpired
  else if amount ≤ auction.current_bid then Except.error ErrorCode.BidTooLow
  else if 0 < auction.current_bid ∧ amount < mulU64 auction.current_bid 105 / 100 then
    Except.error ErrorCode.InsufficientBidIncrease
  else
    let refunds : List Transfer :=
      if 0 < auction.current_bid then
        [⟨Acct.escrowPayment, Acct.previousBidder, auction.current_bid⟩]
      else []
    Except.ok
      ({ auction with
          current_bid := amount
          current_bidder := bidder
          bid_count := (auction.bid_count + 1) % 2 ^ 32
          reserve_met := if listing.price ≤ amount then true else auction.reserve_met },
       refunds ++ [⟨Acct.bidderPayment, Acct.escrowPayment, amount⟩])

/-- `settle_auction` (lib.rs lines 270-378): no pause gate; success branch
when the reserve was met and a real bidder exists, otherwise the NFT goes
back to the seller and the listing expires. -/
def settle_auction (marketplace : Marketplace) (listing : Listing) (auction : Auction)
    (now : Int) : Except ErrorCode (Listing × List Transfer) :=
  if listing.status ≠ ListingStatus.Active then Except.error ErrorCode.ListingNotActive
  else if listing.listing_type ≠ ListingType.Auction then Except.error ErrorCode.NotAuction
  else if now < listing.expires_at then Except.error ErrorCode.AuctionNotEnded
  else if auction.reserve_met ∧ auction.current_bidder ≠ Pubkey.default then
    let platform_fee := platform_fee_of auction.current_bid marketplace.platform_fee
    let seller_amount := seller_amount_of auction.current_bid marketplace.platform_fee
    Except.ok
      ({ listing with
          status := ListingStatus.Sold
          buyer := some auction.current_bidder
          sold_at := some now },
       [⟨Acct.escrowPayment, Acct.sellerPayment, seller_amount⟩,
        ⟨Acct.escrowPayment, Acct.feeCollector, platform_fee⟩,
        ⟨Acct.escrowNft, Acct.winnerNft, 1⟩])
  else
    Except.ok
      ({ listing with status := ListingStatus.Expired },
       [⟨Acct.escrowNft, Acct.sellerNft, 1⟩])

/-- `cancel_listing` (lib.rs lines 381-426).  The `CancelListing` context
(lines 624-640) declares its `auction` field as `Option<Account<Auction>>`
with NO constraint tying it to the listing (no seeds, no `has_one`), so the
record consulted by the `current_bid == 0` check is whichever Auction
account of this program the caller chose to pass; it is modelled here as
the free argument `auctionAcc`.  Reading `current_bid` from an omitted
optional account is modelled as `AccountNotProvided`. -/
def cancel_listing (listing : Listing) (auctionAcc : Option Auction) (caller : Pubkey) :
    Except ErrorCode (Listing × List Transfer) :=
  if listing.status ≠ ListingStatus.Active then Except.error ErrorCode.ListingNotActive
  else if listing.seller ≠ caller then Except.error ErrorCode.NotSeller
  else if listing.listing_type = ListingType.Auction then
    match auctionAcc with
    | none => Except.error ErrorCode.AccountNotProvided
    | some auction =>
      if auction.current_bid ≠ 0 then Except.error ErrorCode.HasActiveBid
      else
        Except.ok
          ({ listing with status := ListingStatus.Cancelled },
           [⟨Acct.escrowNft, Acct.sellerNft, 1⟩])
  else
    Except.ok
      ({ listing with status := ListingStatus.Cancelled },
       [⟨Acct.escrowNft, Acct.sellerNft, 1⟩])

/-- `set_paused` (lib.rs lines 429-433), together with the
`has_one = authority` constraint of the `AdminAction` context (line 644)
that Anchor checks before the handler body runs. -/
def set_paused (marketplace : Marketplace) (caller : Pubkey) (paused : Bool) :
    Except ErrorCode Marketplace :=
  if marketplace.authority ≠ caller then Except.error ErrorCode.ConstraintHasOne
  else Except.ok { marketplace with paused := paused }

/-- `set_fee` (lib.rs lines 436-441), with the same `has_one = authority`
account constraint, then the `new_fee <= 1000` handler check. -/
def set_fee (marketplace : Marketplace) (caller : Pubkey) (new_fee : Nat) :
    Except ErrorCode Marketplace :=
  if marketplace.authority ≠ caller then Except.error ErrorCode.ConstraintHasOne
  else if 1000 < new_fee then Except.error ErrorCode.FeeTooHigh
  else Except.ok { marketplace with platform_fee := new_fee }

/-- States of the `Marketplace` account reachable from a given state.  Only
`initialize`, `set_paused` and `set_fee` take the marketplace account
mutably (`AdminAction` is the sole context with `mut` on it, line 644); the
contexts of `create_listing`, `create_auction`, `buy`, `place_bid` and
`settle_auction` declare it read-only and `CancelListing` does not include
it at all, which is reflected in the Lean signatures above: none of those
operations returns a `Marketplace`. -/
inductive ReachableFrom (m0 : Marketplace) : Marketplace → Prop where
  | base : ReachableFrom m0 m0
  | pause_step (m m' : Marketplace) (caller : Pubkey) (b : Bool) :
      ReachableFrom m0 m → set_paused m caller b = Except.ok m' → ReachableFrom m0 m'
  | fee_step (m m' : Marketplace) (caller : Pubkey) (f : Nat) :
      ReachableFrom m0 m → set_fee m caller f = Except.ok m' → ReachableFrom m0 m'

/-- A marketplace with fee 250 bps, not paused, authority key 1. -/
def demoMkt : Marketplace :=
  { authority := ⟨1⟩
    fee_collector := ⟨2⟩
    platform_fee := 250
    total_listings := 0
    total_sales := 0
    paused := false }

/-- An active auction-type listing with reserve price 500, expiring at 1000. -/
def demoAuctionListing : Listing :=
  { seller := ⟨3⟩
    nft_mint := ⟨4⟩
    payment_mint := ⟨5⟩
    price := 500
    listing_type := ListingType.Auction
    status := ListingStatus.Active
    created_at := 0
    expires_at := 1000
    scid := none
    buyer := none
    sold_at := none }

/-- The fresh auction record for `demoAuctionListing`: no bid yet. -/
def demoAuction0 : Auction :=
  { listing := ⟨6⟩
    current_bid := 0
    current_bidder := Pubkey.default
    bid_count := 0
    reserve_met := false }

/-- The auction record after an accepted first bid of 100 by key 10. -/
def demoA100 : Auction :=
  { demoAuction0 with current_bid := 100, current_bidder := ⟨10⟩, bid_count := 1 }

/-- Claim C3: for every fee rate `f ≤ 1000` and every `u64` price `p`, the
settlement fee computation used by both `buy` and `settle_auction` yields
`platformFee = floor(p * f / 10000)` with no overflow (the `u128`
intermediate `p * f` stays below `2 ^ 128` and the `as u64` cast is
lossless), and `sellerAmount + platformFee = p` exactly. -/
theorem C3_fee_computation_exact (f p : Nat) (hf : f ≤ 1000) (hp : p < u64Size) :
    platform_fee_of p f = p * f / 10000 ∧
    seller_amount_of p f + platform_fee_of p f = p ∧
    p * f < 2 ^ 128 := by
  have hfee_le : p * f / 10000 ≤ p := by
    have h1 : p * f ≤ p * 10000 := Nat.mul_le_mul_left p (le_trans hf (by norm_num))
    calc p * f / 10000 ≤ p * 10000 / 10000 := Nat.div_le_div_right h1
      _ = p := Nat.mul_div_cancel p (by norm_num)
  have hcast : platform_fee_of p f = p * f / 10000 := by
    unfold platform_fee_of u64cast
    exact Nat.mod_eq_of_lt (lt_of_le_of_lt hfee_le hp)
  refine ⟨hcast, ?_, ?_⟩
  · unfold seller_amount_of subU64
    rw [hcast]
    have hsplit : p + u64Size - p * f / 10000 = p - p * f / 10000 + u64Size := by omega
    rw [hsplit, Nat.add_mod_right,
      Nat.mod_eq_of_lt (lt_of_le_of_lt (Nat.sub_le _ _) hp)]
    omega
  · calc p * f ≤ p * 1000 := Nat.mul_le_mul_left p hf
      _ < u64Size * 1000 := Nat.mul_lt_mul_of_lt_of_le hp (le_refl 1000) (by norm_num)
      _ < 2 ^ 128 := by norm_num [u64Size]

/-- Witness for C3 at fee 250 bps and price 1000. -/
theorem C3_fee_computation_exact_witness :
    platform_fee_of 1000 250 = 1000 * 250 / 10000 ∧
    seller_amount_of 1000 250 + platform_fee_of 1000 250 = 1000 ∧
    1000 * 250 < 2 ^ 128 :=
  C3_fee_computation_exact 250 1000 (by norm_num) (by norm_num [u64Size])

/-- Claim C5: on the demo auction listing with no prior bid, the bid
sequence 100, 104, 110 behaves as specified: 100 is accepted, 104 is
rejected with `InsufficientBidIncrease` (104 < 105 percent of 100), 110 is
accepted and triggers a refund of exactly 100 from the auction payment
escrow to the previous bidder; the final state has `current_bid = 110` and
`bid_count = 2`. -/
theorem C5_bid_sequence :
    place_bid demoMkt demoAuctionListing demoAuction0 ⟨10⟩ 100 10
      = Except.ok (demoA100, [⟨Acct.bidderPayment, Acct.escrowPayment, 100⟩]) ∧
    place_bid demoMkt demoAuctionListing demoA100 ⟨11⟩ 104 10
      = Except.error ErrorCode.InsufficientBidIncrease ∧
    place_bid demoMkt demoAuctionListing demoA100 ⟨11⟩ 110 10
      = Except.ok ({ demoA100 with current_bid := 110, current_bidder := ⟨11⟩, bid_count := 2 },
          [⟨Acct.escrowPayment, Acct.previousBidder, 100⟩,
           ⟨Acct.bidderPayment, Acct.escrowPayment, 110⟩]) := by
  refine ⟨rfl, rfl, rfl⟩

/-- The auction record actually bound to `demoAuctionListing` after a live
bid of 300 by key 7. -/
def c1TrueAuction : Auction :=
  { listing := ⟨6⟩
    current_bid := 300
    current_bidder := ⟨7⟩
    bid_count := 1
    reserve_met := false }

/-- Some other auction record of the program, with no bid; it belongs to a
different listing (key 99), not to `demoAuctionListing`. -/
def c1OtherAuction : Auction :=
  { listing := ⟨99⟩
    current_bid := 0
    current_bidder := Pubkey.default
    bid_count := 0
    reserve_met := false }

/-- Claim C1: evaluation at the failing input.  The auction bound to the
listing holds a live bid of 300, and when that record is the one supplied,
`cancel_listing` does fail with `HasActiveBid`; but because the
`CancelListing` context places no constraint on its `auction` account, the
seller can instead supply a different auction record whose `current_bid`
is 0, and the very same cancellation succeeds — the listing becomes
Cancelled and the escrowed NFT is released — contradicting the claim that
cancellation of an auction with a positive current bid always fails. -/
theorem C1_cancel_bypasses_active_bid :
    0 < c1TrueAuction.current_bid ∧
    cancel_listing demoAuctionListing (some c1TrueAuction) demoAuctionListing.seller
      = Except.error ErrorCode.HasActiveBid ∧
    cancel_listing demoAuctionListing (some c1OtherAuction) demoAuctionListing.seller
      = Except.ok ({ demoAuctionListing with status := ListingStatus.Cancelled },
                   [⟨Acct.escrowNft, Acct.sellerNft, 1⟩]) :=
  ⟨by decide, rfl, rfl⟩

/-- Claim C2, counterexample: `initialize` performs no range check on its
`platform_fee` argument, so the state reached immediately after
`initialize` with argument 2000 is a reachable state whose stored fee
exceeds 1000 basis points, refuting the claimed invariant for arbitrary
`platform_fee` arguments. -/
theorem C2_counterexample :
    ReachableFrom (initMarketplace ⟨1⟩ ⟨2⟩ 2000) (initMarketplace ⟨1⟩ ⟨2⟩ 2000) ∧
    1000 < (initMarketplace ⟨1⟩ ⟨2⟩ 2000).platform_fee :=
  ⟨ReachableFrom.base, by decide⟩

/-- Claim C2 as amended: provided the `platform_fee` argument passed to
`initialize` is at most 1000, every marketplace state reachable from it —
through any sequence of the only marketplace-mutating operations,
`set_paused` and `set_fee` — keeps the stored platform fee at most 1000
basis points (`set_fee` rejects larger values with `FeeTooHigh`). -/
theorem C2_fee_invariant (a fc : Pubkey) (f : Nat) (hf : f ≤ 1000) (m : Marketplace)
    (h : ReachableFrom (initMarketplace a fc f) m) : m.platform_fee ≤ 1000 := by
  induction h with
  | base => exact hf
  | pause_step m m' caller b hr hok ih =>
    unfold set_paused at hok
    split at hok
    · exact Except.noConfusion hok
    · injection hok with hh
      subst hh
      exact ih
  | fee_step m m' caller g hr hok ih =>
    unfold set_fee at hok
    split at hok
    · exact Except.noConfusion hok
    · split at hok
      · exact Except.noConfusion hok
      next hg =>
        injection hok with hh
        subst hh
        exact Nat.le_of_not_lt hg

/-- Witness for C2 as amended, at the initial state itself. -/
theorem C2_fee_invariant_witness :
    (initMarketplace ⟨1⟩ ⟨2⟩ 250).platform_fee ≤ 1000 :=
  C2_fee_invariant ⟨1⟩ ⟨2⟩ 250 (by norm_num) (initMarketplace ⟨1⟩ ⟨2⟩ 250)
    ReachableFrom.base

/-- Claim C10: `initialize` sets both counters to zero and no instruction
of the program ever writes them again, so every reachable marketplace
state has `total_listings = 0` and `total_sales = 0`.  Operations other
than `initialize`, `set_paused` and `set_fee` cannot appear as steps: in
the source only the `AdminAction` context takes the marketplace account
mutably, which the Lean signatures mirror by not returning a
`Marketplace` from any other operation. -/
theorem C10_counters_never_move (a fc : Pubkey) (f : Nat) (m : Marketplace)
    (h : ReachableFrom (initMarketplace a fc f) m) :
    m.total_listings = 0 ∧ m.total_sales = 0 := by
  induction h with
  | base => exact ⟨rfl, rfl⟩
  | pause_step m m' caller b hr hok ih =>
    unfold set_paused at hok
    split at hok
    · exact Except.noConfusion hok
    · injection hok with hh
      subst hh
      exact ih
  | fee_step m m' caller g hr hok ih =>
    unfold set_fee at hok
    split at hok
    · exact Except.noConfusion hok
    · split at hok
      · exact Except.noConfusion hok
      · injection hok with hh
        subst hh
        exact ih

/-- Witness for C10 at the freshly initialized state. -/
theorem C10_counters_never_move_witness :
    (initMarketplace ⟨1⟩ ⟨2⟩ 250).total_listings = 0 ∧
    (initMarketplace ⟨1⟩ ⟨2⟩ 250).total_sales = 0 :=
  C10_counters_never_move ⟨1⟩ ⟨2⟩ 250 (initMarketplace ⟨1⟩ ⟨2⟩ 250) ReachableFrom.base

/-- An auction whose current bid is `2 ^ 62`, large enough that
`current_bid * 105` overflows `u64`. -/
def c4BigAuction : Auction :=
  { listing := ⟨6⟩
    current_bid := 4611686018427387904
    current_bidder := ⟨12⟩
    bid_count := 3
    reserve_met := true }

/-- Claim C4, counterexample: the increment check multiplies in `u64`, so
for `current_bid = 2 ^ 62` the product `current_bid * 105` wraps around to
`2 ^ 62` and the computed threshold collapses to `2 ^ 62 / 100`.  The bid
`2 ^ 62 + 1` exceeds the current bid (so every other guard passes) and is
far below the exact threshold `floor(current_bid * 105 / 100)`, yet
`place_bid` accepts it instead of failing with `InsufficientBidIncrease` —
so the claimed iff does not hold over the whole `u64` range. -/
theorem C4_counterexample :
    c4BigAuction.current_bid < 4611686018427387905 ∧
    4611686018427387905 < c4BigAuction.current_bid * 105 / 100 ∧
    place_bid demoMkt demoAuctionListing c4BigAuction ⟨20⟩ 4611686018427387905 10
      = Except.ok ({ c4BigAuction with
            current_bid := 4611686018427387905
            current_bidder := ⟨20⟩
            bid_count := 4 },
          [⟨Acct.escrowPayment, Acct.previousBidder, 4611686018427387904⟩,
           ⟨Acct.bidderPayment, Acct.escrowPayment, 4611686018427387905⟩]) :=
  ⟨by decide, by decide, rfl⟩

/-- Claim C4 as amended: for every auction state with `currentBid > 0`
whose product `currentBid * 105` does not overflow `u64`, and every bid
amount with the other guards passing, `place_bid` fails with
`InsufficientBidIncrease` if and only if
`amount < currentBid * 105 / 100` with truncating division; for larger
`currentBid` the `u64` multiplication wraps and the comparison no longer
implements the 5 percent rule. -/
theorem C4_increment_rule (mkt : Marketplace) (l : Listing) (a : Auction)
    (bidder : Pubkey) (amount : Nat) (now : Int)
    (hp : mkt.paused = false)
    (hs : l.status = ListingStatus.Active)
    (ht : l.listing_type = ListingType.Auction)
    (hx : now < l.expires_at)
    (hlow : a.current_bid < amount)
    (hpos : 0 < a.current_bid)
    (hnof : a.current_bid * 105 < u64Size) :
    (place_bid mkt l a bidder amount now = Except.error ErrorCode.InsufficientBidIncrease)
      ↔ amount < a.current_bid * 105 / 100 := by
  have h1 : ¬ (l.expires_at ≤ now) := not_le.mpr hx
  have h2 : ¬ (amount ≤ a.current_bid) := not_le.mpr hlow
  have hm : mulU64 a.current_bid 105 = a.current_bid * 105 := by
    unfold mulU64
    exact Nat.mod_eq_of_lt hnof
  by_cases hc : amount < a.current_bid * 105 / 100
  · have hcond : 0 < a.current_bid ∧ amount < mulU64 a.current_bid 105 / 100 :=
      ⟨hpos, by rw [hm]; exact hc⟩
    simp [place_bid, hp, hs, ht, h1, h2, hcond, hc]
  · have hcond : ¬ (0 < a.current_bid ∧ amount < mulU64 a.current_bid 105 / 100) := by
      rw [hm]
      rintro ⟨-, hlt⟩
      exact hc hlt
    simp [place_bid, hp, hs, ht, h1, h2, hcond, hc]

/-- Witness for C4 as amended: with current bid 100 the rejected amount
104 sits exactly below the 105 threshold. -/
theorem C4_increment_rule_witness :
    (place_bid demoMkt demoAuctionListing demoA100 ⟨9⟩ 104 10
        = Except.error ErrorCode.InsufficientBidIncrease)
      ↔ 104 < demoA100.current_bid * 105 / 100 :=
  C4_increment_rule demoMkt demoAuctionListing demoA100 ⟨9⟩ 104 10 rfl rfl rfl
    (by decide) (by decide) (by decide) (by decide)

/-- Claim C6: for every ended auction (listing Active, type Auction,
`expiresAt ≤ now`) in which the reserve was never met or the current
bidder is still the sentinel, `settle_auction` succeeds, performs exactly
one transfer — the escrowed NFT back to the original seller — and sets the
listing status to Expired; in particular no payment transfer occurs. -/
theorem C6_failed_auction_settlement (mkt : Marketplace) (l : Listing) (a : Auction)
    (now : Int)
    (hs : l.status = ListingStatus.Active)
    (ht : l.listing_type = ListingType.Auction)
    (hend : l.expires_at ≤ now)
    (hfail : a.reserve_met = false ∨ a.current_bidder = Pubkey.default) :
    settle_auction mkt l a now
      = Except.ok ({ l with status := ListingStatus.Expired },
                   [⟨Acct.escrowNft, Acct.sellerNft, 1⟩]) := by
  have h3 : ¬ (now < l.expires_at) := not_lt.mpr hend
  have h4 : ¬ (a.reserve_met = true ∧ a.current_bidder ≠ Pubkey.default) := by
    rcases hfail with h | h <;> simp [h]
  simp [settle_auction, hs, ht, h3, h4]

/-- Witness for C6: the demo auction ends with no bid at time 2000. -/
theorem C6_failed_auction_settlement_witness :
    settle_auction demoMkt demoAuctionListing demoAuction0 2000
      = Except.ok ({ demoAuctionListing with status := ListingStatus.Expired },
                   [⟨Acct.escrowNft, Acct.sellerNft, 1⟩]) :=
  C6_failed_auction_settlement demoMkt demoAuctionListing demoAuction0 2000 rfl rfl
    (by decide) (Or.inl rfl)

/-- Claim C7: every status change performed by an operation on an existing
listing starts from Active and ends in a terminal state — `buy` yields
Sold, `settle_auction` yields Sold or Expired, `cancel_listing` yields
Cancelled — and on any listing that is no longer Active, `settle_auction`
fails cleanly with `ListingNotActive` (an error outcome carries no state
change, so a second settlement attempt modifies nothing). -/
theorem C7_status_machine :
    (∀ mkt l b now l' ts, buy mkt l b now = Except.ok (l', ts) →
        l.status = ListingStatus.Active ∧ l'.status = ListingStatus.Sold) ∧
    (∀ mkt l a now l' ts, settle_auction mkt l a now = Except.ok (l', ts) →
        l.status = ListingStatus.Active ∧
          (l'.status = ListingStatus.Sold ∨ l'.status = ListingStatus.Expired)) ∧
    (∀ l aacc c l' ts, cancel_listing l aacc c = Except.ok (l', ts) →
        l.status = ListingStatus.Active ∧ l'.status = ListingStatus.Cancelled) ∧
    (∀ mkt l a now, l.status ≠ ListingStatus.Active →
        settle_auction mkt l a now = Except.error ErrorCode.ListingNotActive) := by
  refine ⟨?_, ?_, ?_, ?_⟩
  · intro mkt l b now l' ts h
    unfold buy at h
    split at h
    · exact Except.noConfusion h
    · split at h
      next => exact Except.noConfusion h
      next hst =>
        split at h
        · exact Except.noConfusion h
        · split at h
          · exact Except.noConfusion h
          · simp only [Except.ok.injEq, Prod.mk.injEq] at h
            obtain ⟨hl, -⟩ := h
            subst hl
            exact ⟨not_not.mp hst, rfl⟩
  · intro mkt l a now l' ts h
    unfold settle_auction at h
    split at h
    next => exact Except.noConfusion h
    next hst =>
      split at h
      · exact Except.noConfusion h
      · split at h
        · exact Except.noConfusion h
        · split at h
          · simp only [Except.ok.injEq, Prod.mk.injEq] at h
            obtain ⟨hl, -⟩ := h
            subst hl
            exact ⟨not_not.mp hst, Or.inl rfl⟩
          · simp only [Except.ok.injEq, Prod.mk.injEq] at h
            obtain ⟨hl, -⟩ := h
            subst hl
            exact ⟨not_not.mp hst, Or.inr rfl⟩
  · intro l aacc c l' ts h
    unfold cancel_listing at h
    split at h
    next => exact Except.noConfusion h
    next hst =>
      split at h
      · exact Except.noConfusion h
      · split at h
        · split at h
          · exact Except.noConfusion h
          · split at h
            · exact Except.noConfusion h
            · simp only [Except.ok.injEq, Prod.mk.injEq] at h
              obtain ⟨hl, -⟩ := h
              subst hl
              exact ⟨not_not.mp hst, rfl⟩
        · simp only [Except.ok.injEq, Prod.mk.injEq] at h
          obtain ⟨hl, -⟩ := h
          subst hl
          exact ⟨not_not.mp hst, rfl⟩
  · intro mkt l a now hne
    simp [settle_auction, hne]

/-- Witness for C7: a second settlement of an already Sold listing fails
with `ListingNotActive`. -/
theorem C7_status_machine_witness :
    settle_auction demoMkt { demoAuctionListing with status := ListingStatus.Sold }
        demoAuction0 2000
      = Except.error ErrorCode.ListingNotActive :=
  C7_status_machine.2.2.2 demoMkt { demoAuctionListing with status := ListingStatus.Sold }
    demoAuction0 2000 (by decide)

/-- Claim C8: with the paused flag set, `create_listing`, `create_auction`,
`buy` and `place_bid` all fail with `MarketplacePaused`; by contrast
`settle_auction` gives identical results for any value of the paused flag
and can never fail with `MarketplacePaused`, and `cancel_listing` — whose
instruction context does not even include the marketplace account — can
never fail with `MarketplacePaused` either. -/
theorem C8_pause_gating :
    (∀ (mkt : Marketplace) (s nm pm : Pubkey) (price : Nat) (dur : Int)
        (scid : Option String) (now : Int),
        create_listing { mkt with paused := true } s nm pm price dur scid now
          = Except.error ErrorCode.MarketplacePaused) ∧
    (∀ (mkt : Marketplace) (s nm pm : Pubkey) (rp : Nat) (dur : Int)
        (scid : Option String) (now : Int),
        create_auction { mkt with paused := true } s nm pm rp dur scid now
          = Except.error ErrorCode.MarketplacePaused) ∧
    (∀ (mkt : Marketplace) (l : Listing) (b : Pubkey) (now : Int),
        buy { mkt with paused := true } l b now = Except.error ErrorCode.MarketplacePaused) ∧
    (∀ (mkt : Marketplace) (l : Listing) (a : Auction) (b : Pubkey) (amt : Nat) (now : Int),
        place_bid { mkt with paused := true } l a b amt now
          = Except.error ErrorCode.MarketplacePaused) ∧
    (∀ (mkt : Marketplace) (b : Bool) (l : Listing) (a : Auction) (now : Int),
        settle_auction { mkt with paused := b } l a now
          = settle_auction { mkt with paused := false } l a now) ∧
    (∀ mkt l a now, settle_auction mkt l a now ≠ Except.error ErrorCode.MarketplacePaused) ∧
    (∀ l aacc c, cancel_listing l aacc c ≠ Except.error ErrorCode.MarketplacePaused) := by
  refine ⟨?_, ?_, ?_, ?_, ?_, ?_, ?_⟩
  · intro mkt s nm pm price dur scid now
    rfl
  · intro mkt s nm pm rp dur scid now
    rfl
  · intro mkt l b now
    rfl
  · intro mkt l a b amt now
    rfl
  · intro mkt b l a now
    rfl
  · intro mkt l a now
    unfold settle_auction
    repeat' split
    all_goals simp
  · intro l aacc c
    unfold cancel_listing
    repeat' split
    all_goals simp

/-- Witness for C8: the negative conjuncts applied at the paused demo
marketplace with an expired bidless auction, and at a fixed-price
cancellation. -/
theorem C8_pause_gating_witness :
    settle_auction { demoMkt with paused := true } demoAuctionListing demoAuction0 2000
      ≠ Except.error ErrorCode.MarketplacePaused ∧
    cancel_listing demoAuctionListing (some demoAuction0) ⟨3⟩
      ≠ Except.error ErrorCode.MarketplacePaused :=
  ⟨C8_pause_gating.2.2.2.2.2.1 { demoMkt with paused := true } demoAuctionListing
      demoAuction0 2000,
   C8_pause_gating.2.2.2.2.2.2 demoAuctionListing (some demoAuction0) ⟨3⟩⟩

/-- Claim C9: `set_paused` and `set_fee` fail with the `has_one` authority
constraint error for every caller other than the stored authority; for the
authority itself `set_fee` fails with `FeeTooHigh` exactly when the new
fee exceeds 1000 — in particular `set_fee 1001` fails and `set_fee 1000`
succeeds, storing 1000. -/
theorem C9_admin_gate (mkt : Marketplace) (caller : Pubkey) :
    (caller ≠ mkt.authority →
      (∀ b, set_paused mkt caller b = Except.error ErrorCode.ConstraintHasOne) ∧
      (∀ f, set_fee mkt caller f = Except.error ErrorCode.ConstraintHasOne)) ∧
    (set_fee mkt mkt.authority 1001 = Except.error ErrorCode.FeeTooHigh) ∧
    (set_fee mkt mkt.authority 1000 = Except.ok { mkt with platform_fee := 1000 }) ∧
    (∀ f, 1000 < f → set_fee mkt mkt.authority f = Except.error ErrorCode.FeeTooHigh) ∧
    (∀ f, f ≤ 1000 → set_fee mkt mkt.authority f = Except.ok { mkt with platform_fee := f }) := by
  refine ⟨?_, ?_, ?_, ?_, ?_⟩
  · intro hne
    have hne' : mkt.authority ≠ caller := fun h => hne h.symm
    exact ⟨fun b => by simp [set_paused, hne'], fun f => by simp [set_fee, hne']⟩
  · simp [set_fee]
  · simp [set_fee]
  · intro f hf
    simp [set_fee, hf]
  · intro f hf
    simp [set_fee, Nat.not_lt.mpr hf]

/-- Witness for C9: a non-authority caller is rejected, and the authority
hits exactly the 1000 basis-point boundary. -/
theorem C9_admin_gate_witness :
    set_paused demoMkt ⟨9⟩ true = Except.error ErrorCode.ConstraintHasOne ∧
    set_fee demoMkt demoMkt.authority 1001 = Except.error ErrorCode.FeeTooHigh ∧
    set_fee demoMkt demoMkt.authority 1000
      = Except.ok { demoMkt with platform_fee := 1000 } :=
  ⟨((C9_admin_gate demoMkt ⟨9⟩).1 (by decide)).1 true,
   (C9_admin_gate demoMkt demoMkt.authority).2.1,
   (C9_admin_gate demoMkt demoMkt.authority).2.2.1⟩

end SoundchainMarketplace
